import Mathlib

/-!
Verification of the crossplane-runtime package parser (pkg/parser).

The Go source is shallowly embedded: the YAML document reader is modelled
as a list of read events (each event is either a split-off document's raw
bytes, as a string, or a mid-stream read error); the two runtime schemes
(metadata and object) are modelled as functions from document bytes to
either a decoded value or a decode error, where the decode error carries a
tag distinguishing the kind-not-registered case (runtime.IsNotRegisteredError)
from every other failure. `PackageParser.Parse`, `isEmptyYAML`,
`annotateErr` and the backend option constructors are translated
line-by-line from the source.
-/

namespace ParserProof

/-- A decode failure of a runtime scheme. `notRegistered` models errors for
which `runtime.IsNotRegisteredError` reports true; `other` models every
other decode failure. -/
inductive DecodeError where
  | notRegistered (msg : String)
  | other (msg : String)
deriving DecidableEq, Repr

/-- Models `runtime.IsNotRegisteredError`. -/
def IsNotRegisteredError : DecodeError → Bool
  | DecodeError.notRegistered _ => true
  | DecodeError.other _ => false

/-- A runtime decoder (`ObjectCreaterTyper` wrapped in a serializer): given
a document's bytes, either produce a decoded object or fail. -/
def Registry (α : Type) : Type := String → Except DecodeError α

/-- One result of `yaml.YAMLReader.Read`: either a split document or a
non-EOF read error. EOF is the end of the event list. -/
inductive ReadEvent where
  | doc (content : String)
  | readErr (msg : String)
deriving DecidableEq, Repr

/-- A reader (`io.ReadCloser`) as seen by `Parse`: the sequence of read
events the YAML reader yields from it, plus the provenance value returned
by `Annotate()` when the reader is an `AnnotatedReadCloser` (`none` when it
is not). -/
structure Stream where
  events : List ReadEvent
  anno : Option String
deriving DecidableEq, Repr

/-- Models Go's `unicode.IsSpace` (White_Space property). -/
def unicodeIsSpace (c : Char) : Bool :=
  c = ' ' || c = '\t' || c = '\n' || c = Char.ofNat 0x0b || c = Char.ofNat 0x0c ||
  c = '\r' || c = Char.ofNat 0x85 || c = Char.ofNat 0xa0 ||
  c = Char.ofNat 0x1680 || (0x2000 ≤ c.toNat && c.toNat ≤ 0x200a) ||
  c = Char.ofNat 0x2028 || c = Char.ofNat 0x2029 || c = Char.ofNat 0x202f ||
  c = Char.ofNat 0x205f || c = Char.ofNat 0x3000

/-- Models `strings.Split(s, sep)` for a one-character separator: the
slices between every occurrence of the separator, so `n` separators yield
`n + 1` slices and the empty input yields one empty slice. -/
def splitOnChar (sep : Char) : List Char → List (List Char)
  | [] => [[]]
  | c :: cs =>
    match splitOnChar sep cs with
    | [] => if c = sep then [[], [c]] else [[c]]
    | l :: ls => if c = sep then [] :: l :: ls else (c :: l) :: ls

/-- Models `strings.TrimLeftFunc(line, unicode.IsSpace)`. -/
def trimLeftSpace (line : List Char) : List Char :=
  line.dropWhile unicodeIsSpace

/-- Models `strings.HasPrefix(s, "#")`. -/
def startsWithHash : List Char → Bool
  | '#' :: _ => true
  | _ => false

/-- The per-line test of `isEmptyYAML`: after trimming leading whitespace
the line is empty, the start marker `---`, the end marker `...`, or a
comment line. -/
def emptyLine (line : List Char) : Bool :=
  let trimmed := trimLeftSpace line
  trimmed = [] || trimmed = ['-', '-', '-'] || trimmed = ['.', '.', '.'] ||
    startsWithHash trimmed

/-- Translation of `isEmptyYAML`: a document is empty when every line,
after trimming leading whitespace, is empty, a start marker, an end marker,
or a comment. -/
def isEmptyYAML (y : String) : Bool :=
  (splitOnChar '\n' y.data).all emptyLine

/-- The error returned by `Parse`: a raw read error, a decode error, or a
decode error wrapped (`errors.Wrapf`) with a reader's provenance value. -/
inductive ParseError where
  | read (msg : String)
  | decode (e : DecodeError)
  | wrapped (anno : String) (e : ParseError)
deriving DecidableEq, Repr

/-- Translation of `annotateErr`: wrap the error with the reader's
provenance value when the reader is an `AnnotatedReadCloser`, otherwise
return the error unchanged. -/
def annotateErr (err : ParseError) (anno : Option String) : ParseError :=
  match anno with
  | some a => ParseError.wrapped a err
  | none => err

/-- The parse result: ordered metadata and object lists. -/
structure Package (α : Type) where
  meta : List α
  objects : List α
deriving DecidableEq, Repr

/-- Translation of `NewPackage`. -/
def NewPackage (α : Type) : Package α := ⟨[], []⟩

/-- Translation of `Package.GetMeta`. -/
def Package.GetMeta (p : Package α) : List α := p.meta

/-- Translation of `Package.GetObjects`. -/
def Package.GetObjects (p : Package α) : List α := p.objects

/-- Translation of `PackageParser`: the meta scheme and object scheme
serializers. -/
structure PackageParser (α : Type) where
  metaScheme : Registry α
  objScheme : Registry α

/-- Translation of `New`. -/
def New (m o : Registry α) : PackageParser α := ⟨m, o⟩

/-- The body of `Parse`'s `for` loop, one recursive step per
`yr.Read()` event, threading the package being built. -/
def parseLoop (dm dObj : Registry α) (anno : Option String) :
    List ReadEvent → Package α → Package α × Option ParseError
  | [], pkg => (pkg, none)
  | ReadEvent.readErr m :: _, pkg => (pkg, some (ParseError.read m))
  | ReadEvent.doc content :: rest, pkg =>
    if isEmptyYAML content then
      parseLoop dm dObj anno rest pkg
    else
      match dm content with
      | Except.ok m =>
        parseLoop dm dObj anno rest { pkg with meta := pkg.meta ++ [m] }
      | Except.error e =>
        if IsNotRegisteredError e then
          match dObj content with
          | Except.ok o =>
            parseLoop dm dObj anno rest { pkg with objects := pkg.objects ++ [o] }
          | Except.error e2 => (pkg, some (annotateErr (ParseError.decode e2) anno))
        else
          (pkg, some (annotateErr (ParseError.decode e) anno))

/-- Translation of `PackageParser.Parse`: a nil reader yields a fresh empty
package and no error; otherwise the read loop runs over the reader's
events starting from a fresh empty package. -/
def PackageParser.Parse (p : PackageParser α) (reader : Option Stream) :
    Package α × Option ParseError :=
  match reader with
  | none => (NewPackage α, none)
  | some s => parseLoop p.metaScheme p.objScheme s.anno s.events (NewPackage α)

/-- Translation of `NopBackend.Init`: returns a nil reader and a nil
error. -/
def NopBackendInit : Option Stream × Option String := (none, none)

/-- The metadata value a single read event contributes: the meta scheme's
decoded object when the event is a non-blank document the meta scheme
accepts, and nothing otherwise. -/
def evMeta (dm : Registry α) : ReadEvent → Option α
  | ReadEvent.readErr _ => none
  | ReadEvent.doc d =>
    if isEmptyYAML d then none
    else
      match dm d with
      | Except.ok m => some m
      | Except.error _ => none

/-- The object value a single read event contributes: the object scheme's
decoded object when the event is a non-blank document the meta scheme
rejects as not registered and the object scheme accepts. -/
def evObj (dm dObj : Registry α) : ReadEvent → Option α
  | ReadEvent.readErr _ => none
  | ReadEvent.doc d =>
    if isEmptyYAML d then none
    else
      match dm d with
      | Except.ok _ => none
      | Except.error e =>
        if IsNotRegisteredError e then (dObj d).toOption else none

/-- Whether a read event lets the parse loop continue: a blank document, a
document the meta scheme accepts, or a document the meta scheme rejects as
not registered and the object scheme accepts. -/
def evOk (dm dObj : Registry α) : ReadEvent → Bool
  | ReadEvent.readErr _ => false
  | ReadEvent.doc d =>
    isEmptyYAML d ||
      (match dm d with
       | Except.ok _ => true
       | Except.error e => IsNotRegisteredError e && (dObj d).toOption.isSome)

/-- Full accounting of the parse loop: the events split into a processed
prefix of surviving events and an unprocessed suffix; the meta and object
lists grow by exactly the values the prefix contributes, in order; the
loop errors iff the suffix is nonempty, and the suffix's head is the event
that stopped it. -/
theorem parseLoop_characterization (dm dObj : Registry α) (anno : Option String) :
    ∀ (evs : List ReadEvent) (pkg : Package α),
      ∃ pre suf, evs = pre ++ suf ∧
        (∀ e ∈ pre, evOk dm dObj e = true) ∧
        (parseLoop dm dObj anno evs pkg).1.meta = pkg.meta ++ pre.filterMap (evMeta dm) ∧
        (parseLoop dm dObj anno evs pkg).1.objects
          = pkg.objects ++ pre.filterMap (evObj dm dObj) ∧
        ((parseLoop dm dObj anno evs pkg).2 = none ↔ suf = []) ∧
        (∀ e r, suf = e :: r → evOk dm dObj e = false) := by
  intro evs
  induction evs with
  | nil =>
    intro pkg
    exact ⟨[], [], rfl, by simp, by simp [parseLoop], by simp [parseLoop],
      by simp [parseLoop], by simp⟩
  | cons ev rest ih =>
    intro pkg
    cases ev with
    | readErr m =>
      refine ⟨[], ReadEvent.readErr m :: rest, rfl, by simp, by simp [parseLoop],
        by simp [parseLoop], by simp [parseLoop], ?_⟩
      intro e r h
      obtain ⟨he, -⟩ := List.cons.injEq .. ▸ h
      subst he
      simp [evOk]
    | doc d =>
      by_cases hblank : isEmptyYAML d
      · obtain ⟨pre, suf, hsplit, hok, hmeta, hobj, herr, hbad⟩ := ih pkg
        refine ⟨ReadEvent.doc d :: pre, suf, by rw [List.cons_append, hsplit], ?_, ?_, ?_, ?_, hbad⟩
        · intro e he
          rcases List.mem_cons.mp he with he | he
          · subst he; simp [evOk, hblank]
          · exact hok e he
        · simpa [parseLoop, hblank, List.filterMap_cons, evMeta] using hmeta
        · simpa [parseLoop, hblank, List.filterMap_cons, evObj] using hobj
        · simpa [parseLoop, hblank] using herr
      · cases hm : dm d with
        | ok m =>
          obtain ⟨pre, suf, hsplit, hok, hmeta, hobj, herr, hbad⟩ :=
            ih { pkg with meta := pkg.meta ++ [m] }
          refine ⟨ReadEvent.doc d :: pre, suf, by rw [List.cons_append, hsplit], ?_, ?_, ?_, ?_, hbad⟩
          · intro e he
            rcases List.mem_cons.mp he with he | he
            · subst he; simp [evOk, hblank, hm]
            · exact hok e he
          · rw [show parseLoop dm dObj anno (ReadEvent.doc d :: rest) pkg
                = parseLoop dm dObj anno rest { pkg with meta := pkg.meta ++ [m] } by
                  simp [parseLoop, hblank, hm]]
            rw [hmeta]
            simp [List.filterMap_cons, evMeta, hblank, hm]
          · rw [show parseLoop dm dObj anno (ReadEvent.doc d :: rest) pkg
                = parseLoop dm dObj anno rest { pkg with meta := pkg.meta ++ [m] } by
                  simp [parseLoop, hblank, hm]]
            rw [hobj]
            simp [List.filterMap_cons, evObj, hblank, hm]
          · rw [show parseLoop dm dObj anno (ReadEvent.doc d :: rest) pkg
                = parseLoop dm dObj anno rest { pkg with meta := pkg.meta ++ [m] } by
                  simp [parseLoop, hblank, hm]]
            exact herr
        | error e =>
          cases hr : IsNotRegisteredError e with
          | true =>
            cases ho : dObj d with
            | ok o =>
              obtain ⟨pre, suf, hsplit, hok, hmeta, hobj, herr, hbad⟩ :=
                ih { pkg with objects := pkg.objects ++ [o] }
              refine ⟨ReadEvent.doc d :: pre, suf, by rw [List.cons_append, hsplit],
                ?_, ?_, ?_, ?_, hbad⟩
              · intro x hx
                rcases List.mem_cons.mp hx with hx | hx
                · subst hx; simp [evOk, hblank, hm, hr, ho, Except.toOption]
                · exact hok x hx
              · rw [show parseLoop dm dObj anno (ReadEvent.doc d :: rest) pkg
                    = parseLoop dm dObj anno rest { pkg with objects := pkg.objects ++ [o] } by
                      simp [parseLoop, hblank, hm, hr, ho]]
                rw [hmeta]
                simp [List.filterMap_cons, evMeta, hblank, hm]
              · rw [show parseLoop dm dObj anno (ReadEvent.doc d :: rest) pkg
                    = parseLoop dm dObj anno rest { pkg with objects := pkg.objects ++ [o] } by
                      simp [parseLoop, hblank, hm, hr, ho]]
                rw [hobj]
                simp [List.filterMap_cons, evObj, hblank, hm, hr, ho, Except.toOption]
              · rw [show parseLoop dm dObj anno (ReadEvent.doc d :: rest) pkg
                    = parseLoop dm dObj anno rest { pkg with objects := pkg.objects ++ [o] } by
                      simp [parseLoop, hblank, hm, hr, ho]]
                exact herr
            | error e2 =>
              refine ⟨[], ReadEvent.doc d :: rest, rfl, by simp,
                by simp [parseLoop, hblank, hm, hr, ho],
                by simp [parseLoop, hblank, hm, hr, ho],
                by simp [parseLoop, hblank, hm, hr, ho], ?_⟩
              intro x r h
              obtain ⟨hx, -⟩ := List.cons.injEq .. ▸ h
              subst hx
              simp [evOk, hblank, hm, hr, ho, Except.toOption]
          | false =>
            refine ⟨[], ReadEvent.doc d :: rest, rfl, by simp,
              by simp [parseLoop, hblank, hm, hr],
              by simp [parseLoop, hblank, hm, hr],
              by simp [parseLoop, hblank, hm, hr], ?_⟩
            intro x r h
            obtain ⟨hx, -⟩ := List.cons.injEq .. ▸ h
            subst hx
            simp [evOk, hblank, hm, hr]

/-- Every error the parse loop returns is either a raw read error or a
decode error passed through `annotateErr` exactly once. -/
theorem parseLoop_error_shape (dm dObj : Registry α) (anno : Option String) :
    ∀ (evs : List ReadEvent) (pkg pkg2 : Package α) (e : ParseError),
      parseLoop dm dObj anno evs pkg = (pkg2, some e) →
      (∃ m, e = ParseError.read m) ∨
        ∃ de, e = annotateErr (ParseError.decode de) anno := by
  intro evs
  induction evs with
  | nil =>
    intro pkg pkg2 e h
    simp [parseLoop] at h
  | cons ev rest ih =>
    intro pkg pkg2 e h
    cases ev with
    | readErr m =>
      simp [parseLoop] at h
      exact Or.inl ⟨m, h.2.symm⟩
    | doc d =>
      by_cases hblank : isEmptyYAML d
      · rw [show parseLoop dm dObj anno (ReadEvent.doc d :: rest) pkg
            = parseLoop dm dObj anno rest pkg by simp [parseLoop, hblank]] at h
        exact ih pkg pkg2 e h
      · cases hm : dm d with
        | ok m =>
          rw [show parseLoop dm dObj anno (ReadEvent.doc d :: rest) pkg
              = parseLoop dm dObj anno rest { pkg with meta := pkg.meta ++ [m] } by
                simp [parseLoop, hblank, hm]] at h
          exact ih _ pkg2 e h
        | error de =>
          cases hr : IsNotRegisteredError de with
          | true =>
            cases ho : dObj d with
            | ok o =>
              rw [show parseLoop dm dObj anno (ReadEvent.doc d :: rest) pkg
                  = parseLoop dm dObj anno rest { pkg with objects := pkg.objects ++ [o] } by
                    simp [parseLoop, hblank, hm, hr, ho]] at h
              exact ih _ pkg2 e h
            | error e2 =>
              rw [show parseLoop dm dObj anno (ReadEvent.doc d :: rest) pkg
                  = (pkg, some (annotateErr (ParseError.decode e2) anno)) by
                    simp [parseLoop, hblank, hm, hr, ho]] at h
              obtain ⟨-, h2⟩ := Prod.mk.injEq .. ▸ h
              exact Or.inr ⟨e2, (Option.some.injEq .. ▸ h2).symm⟩
          | false =>
            rw [show parseLoop dm dObj anno (ReadEvent.doc d :: rest) pkg
                = (pkg, some (annotateErr (ParseError.decode de) anno)) by
                  simp [parseLoop, hblank, hm, hr]] at h
            obtain ⟨-, h2⟩ := Prod.mk.injEq .. ▸ h
            exact Or.inr ⟨de, (Option.some.injEq .. ▸ h2).symm⟩

section Fixtures

/-- A concrete meta scheme used to instantiate theorems: recognizes
`kind: Foo`, fails with a non-registration error on `kind: Mal`, and
reports kind-not-registered on everything else. -/
def dmA : Registry String := fun d =>
  if d = "kind: Foo" then Except.ok "Foo"
  else if d = "kind: Mal" then Except.error (DecodeError.other "malformed")
  else Except.error (DecodeError.notRegistered ("meta scheme: " ++ d))

/-- A concrete object scheme used to instantiate theorems: recognizes
`kind: Bar` and reports kind-not-registered on everything else. -/
def doA : Registry String := fun d =>
  if d = "kind: Bar" then Except.ok "Bar"
  else Except.error (DecodeError.notRegistered ("obj scheme: " ++ d))

/-- A concrete parser over the two fixture schemes. -/
def pA : PackageParser String := New dmA doA

end Fixtures

/-- C1: for a non-blank document, `Parse` decodes against the meta scheme
first; on success the document goes to the metadata list and the loop
continues; only when the meta scheme fails with the kind-not-registered
error specifically is the object scheme consulted; and when the meta
scheme fails with any other error the loop aborts at once with that error,
for every possible object scheme — the content registry is never
attempted. -/
theorem C1_two_stage_decode_policy (dm dObj : Registry α) (anno : Option String)
    (d : String) (rest : List ReadEvent) (pkg : Package α)
    (hblank : isEmptyYAML d = false) :
    (∀ m, dm d = Except.ok m →
      parseLoop dm dObj anno (ReadEvent.doc d :: rest) pkg
        = parseLoop dm dObj anno rest { pkg with meta := pkg.meta ++ [m] }) ∧
    (∀ e, dm d = Except.error e → IsNotRegisteredError e = true →
      parseLoop dm dObj anno (ReadEvent.doc d :: rest) pkg
        = (match dObj d with
           | Except.ok o =>
             parseLoop dm dObj anno rest { pkg with objects := pkg.objects ++ [o] }
           | Except.error e2 => (pkg, some (annotateErr (ParseError.decode e2) anno)))) ∧
    (∀ e, dm d = Except.error e → IsNotRegisteredError e = false →
      ∀ dObj2 : Registry α,
        parseLoop dm dObj2 anno (ReadEvent.doc d :: rest) pkg
          = (pkg, some (annotateErr (ParseError.decode e) anno))) := by
  refine ⟨?_, ?_, ?_⟩
  · intro m hm
    simp [parseLoop, hblank, hm]
  · intro e hm hr
    simp [parseLoop, hblank, hm, hr]
  · intro e hm hr dObj2
    simp [parseLoop, hblank, hm, hr]

/-- Instantiation of C1 at a concrete non-blank document on which the meta
scheme fails with a non-registration error: the loop aborts immediately,
whatever the object scheme would have said. -/
theorem C1_two_stage_decode_policy_witness :
    parseLoop dmA doA none [ReadEvent.doc "kind: Mal"] (NewPackage String)
      = (NewPackage String,
          some (annotateErr (ParseError.decode (DecodeError.other "malformed")) none)) :=
  (C1_two_stage_decode_policy dmA doA none "kind: Mal" [] (NewPackage String)
      (by decide)).2.2 (DecodeError.other "malformed") rfl rfl doA

/-- C2 (amended): a non-blank document rejected as not-registered by the
meta scheme and then rejected by the object scheme aborts the loop; the
returned error wraps the object scheme's failure (the content-registry
failure, not the metadata one), and the package is returned exactly as it
was — no entry for the document, all previously decoded documents kept. -/
theorem C2_neither_registry_abort (dm dObj : Registry α) (anno : Option String)
    (d : String) (rest : List ReadEvent) (pkg : Package α)
    (hblank : isEmptyYAML d = false) (em eo : DecodeError)
    (hm : dm d = Except.error em) (hmr : IsNotRegisteredError em = true)
    (ho : dObj d = Except.error eo) :
    parseLoop dm dObj anno (ReadEvent.doc d :: rest) pkg
      = (pkg, some (annotateErr (ParseError.decode eo) anno)) := by
  simp [parseLoop, hblank, hm, hmr, ho]

/-- Instantiation of C2 at a concrete document neither scheme recognizes,
after one successfully decoded document: the prior metadata entry is kept
and the error wraps the object scheme's failure. -/
theorem C2_neither_registry_abort_witness :
    parseLoop dmA doA (some "src") [ReadEvent.doc "kind: Nope"] ⟨["Foo"], []⟩
      = (⟨["Foo"], []⟩,
          some (annotateErr
            (ParseError.decode (DecodeError.notRegistered "obj scheme: kind: Nope"))
            (some "src"))) :=
  C2_neither_registry_abort dmA doA (some "src") "kind: Nope" [] ⟨["Foo"], []⟩
    (by decide) (DecodeError.notRegistered "meta scheme: kind: Nope")
    (DecodeError.notRegistered "obj scheme: kind: Nope") rfl rfl rfl

/-- Counterexample to C2 as stated: for a document recognized by neither
fixture scheme, `Parse` returns the object scheme's (content-registry)
failure, which differs from the meta scheme's (metadata-registry)
failure. -/
theorem C2_neither_registry_counterexample :
    (PackageParser.Parse pA (some ⟨[ReadEvent.doc "kind: Nope"], none⟩)).2
        = some (ParseError.decode (DecodeError.notRegistered "obj scheme: kind: Nope")) ∧
    dmA "kind: Nope"
        = Except.error (DecodeError.notRegistered "meta scheme: kind: Nope") ∧
    ParseError.decode (DecodeError.notRegistered "obj scheme: kind: Nope")
      ≠ ParseError.decode (DecodeError.notRegistered "meta scheme: kind: Nope") :=
  ⟨rfl, rfl, by decide⟩

/-- C3 (amended): every error `Parse` returns is either a mid-stream read
error, returned unchanged and never annotated, or a decode failure passed
through `annotateErr` exactly once — wrapped with the stream's provenance
value when the stream has one and returned unchanged otherwise; and
`annotateErr` adds exactly one wrapper layer when a provenance value is
present and none otherwise. -/
theorem C3_error_annotation (p : PackageParser α) (s : Stream)
    (pkg : Package α) (e : ParseError)
    (h : PackageParser.Parse p (some s) = (pkg, some e)) :
    ((∃ m, e = ParseError.read m) ∨
      ∃ de, e = annotateErr (ParseError.decode de) (Stream.anno s)) ∧
    (∀ err a, annotateErr err (some a) = ParseError.wrapped a err) ∧
    (∀ err, annotateErr err none = err) := by
  refine ⟨?_, fun err a => rfl, fun err => rfl⟩
  exact parseLoop_error_shape p.metaScheme p.objScheme (Stream.anno s)
    (Stream.events s) (NewPackage α) pkg e h

/-- Instantiation of C3 at a concrete annotated stream whose document
fails decode: the returned error is the decode failure wrapped once with
the provenance value. -/
theorem C3_error_annotation_witness :
    ((∃ m, ParseError.wrapped "src" (ParseError.decode (DecodeError.other "malformed"))
        = ParseError.read m) ∨
      ∃ de, ParseError.wrapped "src" (ParseError.decode (DecodeError.other "malformed"))
        = annotateErr (ParseError.decode de)
            (Stream.anno ⟨[ReadEvent.doc "kind: Mal"], some "src"⟩)) ∧
    (∀ err a, annotateErr err (some a) = ParseError.wrapped a err) ∧
    (∀ err, annotateErr err none = err) :=
  C3_error_annotation pA ⟨[ReadEvent.doc "kind: Mal"], some "src"⟩ (NewPackage String)
    (ParseError.wrapped "src" (ParseError.decode (DecodeError.other "malformed"))) rfl

/-- Counterexample to C3 as stated: a mid-stream read failure on a stream
that does expose a provenance value is returned raw, not wrapped with that
value. -/
theorem C3_error_annotation_counterexample :
    (PackageParser.Parse pA (some ⟨[ReadEvent.readErr "boom"], some "file.yaml"⟩)).2
        = some (ParseError.read "boom") ∧
    annotateErr (ParseError.read "boom") (some "file.yaml") ≠ ParseError.read "boom" :=
  ⟨rfl, fun h => ParseError.noConfusion h⟩

/-- C4: the parsed stream's events split into a processed prefix and an
unprocessed suffix; `GetMeta` is exactly the meta-scheme values the prefix
contributes, in stream order, and `GetObjects` exactly the object-scheme
values, so a document recognized by the meta scheme appears in `GetMeta`
and never in `GetObjects`; the parse succeeds iff everything was
processed, a nonempty suffix starts with the event that made it fail, and
every non-blank processed document landed in exactly one of the two
lists — none is silently dropped. -/
theorem C4_document_accounting (p : PackageParser α) (s : Stream) :
    ∃ pre suf, Stream.events s = pre ++ suf ∧
      (∀ e ∈ pre, evOk p.metaScheme p.objScheme e = true) ∧
      Package.GetMeta (PackageParser.Parse p (some s)).1
        = pre.filterMap (evMeta p.metaScheme) ∧
      Package.GetObjects (PackageParser.Parse p (some s)).1
        = pre.filterMap (evObj p.metaScheme p.objScheme) ∧
      ((PackageParser.Parse p (some s)).2 = none ↔ suf = []) ∧
      (∀ e r, suf = e :: r → evOk p.metaScheme p.objScheme e = false) ∧
      (∀ d, ReadEvent.doc d ∈ pre → isEmptyYAML d = false →
        ((evMeta p.metaScheme (ReadEvent.doc d)).isSome
            ∧ (evObj p.metaScheme p.objScheme (ReadEvent.doc d)).isNone) ∨
        ((evMeta p.metaScheme (ReadEvent.doc d)).isNone
            ∧ (evObj p.metaScheme p.objScheme (ReadEvent.doc d)).isSome)) := by
  obtain ⟨pre, suf, hsplit, hok, hmeta, hobj, herr, hbad⟩ :=
    parseLoop_characterization p.metaScheme p.objScheme (Stream.anno s)
      (Stream.events s) (NewPackage α)
  refine ⟨pre, suf, hsplit, hok, ?_, ?_, herr, hbad, ?_⟩
  · simpa [PackageParser.Parse, Package.GetMeta, NewPackage] using hmeta
  · simpa [PackageParser.Parse, Package.GetObjects, NewPackage] using hobj
  · intro d hd hblank
    have h := hok (ReadEvent.doc d) hd
    simp only [evOk, hblank, Bool.false_or] at h
    cases hm : p.metaScheme d with
    | ok m =>
      exact Or.inl (by simp [evMeta, evObj, hblank, hm])
    | error e =>
      rw [hm] at h
      obtain ⟨hr, hsome⟩ := Bool.and_eq_true .. ▸ h
      refine Or.inr ⟨by simp [evMeta, hblank, hm], ?_⟩
      simp [evObj, hblank, hm, hr]
      cases ho : (p.objScheme d) with
      | ok o => simp [Except.toOption]
      | error e2 => rw [ho] at hsome; simp [Except.toOption] at hsome

/-- Instantiation of C4 at the spec's concrete scenario stream. -/
theorem C4_document_accounting_witness :
    ∃ pre suf,
      Stream.events ⟨[ReadEvent.doc "---", ReadEvent.doc "kind: Foo",
        ReadEvent.doc "# comment", ReadEvent.doc "kind: Bar"], none⟩ = pre ++ suf ∧
      (∀ e ∈ pre, evOk pA.metaScheme pA.objScheme e = true) ∧
      Package.GetMeta (PackageParser.Parse pA (some ⟨[ReadEvent.doc "---",
        ReadEvent.doc "kind: Foo", ReadEvent.doc "# comment",
        ReadEvent.doc "kind: Bar"], none⟩)).1
        = pre.filterMap (evMeta pA.metaScheme) ∧
      Package.GetObjects (PackageParser.Parse pA (some ⟨[ReadEvent.doc "---",
        ReadEvent.doc "kind: Foo", ReadEvent.doc "# comment",
        ReadEvent.doc "kind: Bar"], none⟩)).1
        = pre.filterMap (evObj pA.metaScheme pA.objScheme) ∧
      ((PackageParser.Parse pA (some ⟨[ReadEvent.doc "---", ReadEvent.doc "kind: Foo",
        ReadEvent.doc "# comment", ReadEvent.doc "kind: Bar"], none⟩)).2 = none
          ↔ suf = []) ∧
      (∀ e r, suf = e :: r → evOk pA.metaScheme pA.objScheme e = false) ∧
      (∀ d, ReadEvent.doc d ∈ pre → isEmptyYAML d = false →
        ((evMeta pA.metaScheme (ReadEvent.doc d)).isSome
            ∧ (evObj pA.metaScheme pA.objScheme (ReadEvent.doc d)).isNone) ∨
        ((evMeta pA.metaScheme (ReadEvent.doc d)).isNone
            ∧ (evObj pA.metaScheme pA.objScheme (ReadEvent.doc d)).isSome)) :=
  C4_document_accounting pA ⟨[ReadEvent.doc "---", ReadEvent.doc "kind: Foo",
    ReadEvent.doc "# comment", ReadEvent.doc "kind: Bar"], none⟩

/-- C5: `isEmptyYAML` holds iff every line of the document, after trimming
leading whitespace, is empty, the start marker, the end marker, or a
comment line; it is a computable total function of the document's lines;
and the parse loop skips a blank document outright — for every pair of
schemes the step is the same as if the document were absent, so a blank
document is never given to either scheme and never counted in the
output. -/
theorem C5_blank_filter (dm dObj : Registry α) (anno : Option String) :
    (∀ y : String, isEmptyYAML y = true ↔
      ∀ l ∈ splitOnChar '\n' y.data,
        trimLeftSpace l = [] ∨ trimLeftSpace l = ['-', '-', '-'] ∨
        trimLeftSpace l = ['.', '.', '.'] ∨ startsWithHash (trimLeftSpace l) = true) ∧
    (∀ (d : String) (rest : List ReadEvent) (pkg : Package α),
      isEmptyYAML d = true →
      parseLoop dm dObj anno (ReadEvent.doc d :: rest) pkg
        = parseLoop dm dObj anno rest pkg) := by
  constructor
  · intro y
    simp only [isEmptyYAML, List.all_eq_true, emptyLine, Bool.or_eq_true,
      decide_eq_true_eq, or_assoc]
  · intro d rest pkg h
    simp [parseLoop, h]

/-- Instantiation of C5 at a concrete blank document made of a separator,
a comment and whitespace: the blank test holds and the parse loop over it
is the parse loop over the remaining events. -/
theorem C5_blank_filter_witness :
    (isEmptyYAML "---\n# note\n  \n..." = true ↔
      ∀ l ∈ splitOnChar '\n' ("---\n# note\n  \n...").data,
        trimLeftSpace l = [] ∨ trimLeftSpace l = ['-', '-', '-'] ∨
        trimLeftSpace l = ['.', '.', '.'] ∨ startsWithHash (trimLeftSpace l) = true) ∧
    parseLoop dmA doA none (ReadEvent.doc "---\n# note\n  \n..." :: [ReadEvent.doc "kind: Foo"])
        (NewPackage String)
      = parseLoop dmA doA none [ReadEvent.doc "kind: Foo"] (NewPackage String) :=
  ⟨(C5_blank_filter dmA doA none).1 "---\n# note\n  \n...",
    (C5_blank_filter dmA doA none).2 "---\n# note\n  \n..." [ReadEvent.doc "kind: Foo"]
      (NewPackage String) (by decide)⟩

/-- C6: `Parse` is not transactional — whenever it returns an error, the
returned package still holds exactly the values decoded from the events
processed before the failure point; the package is built afresh from the
empty `NewPackage` on each call, and it is returned on the nil-reader path
and on failure alike. -/
theorem C6_not_transactional (p : PackageParser α) :
    PackageParser.Parse p none = (NewPackage α, none) ∧
    (∀ (s : Stream) (e : ParseError),
      (PackageParser.Parse p (some s)).2 = some e →
      ∃ pre suf, Stream.events s = pre ++ suf ∧ suf ≠ [] ∧
        (PackageParser.Parse p (some s)).1.meta
          = (NewPackage α).meta ++ pre.filterMap (evMeta p.metaScheme) ∧
        (PackageParser.Parse p (some s)).1.objects
          = (NewPackage α).objects ++ pre.filterMap (evObj p.metaScheme p.objScheme) ∧
        (∀ ev ∈ pre, evOk p.metaScheme p.objScheme ev = true)) := by
  refine ⟨rfl, ?_⟩
  intro s e he
  obtain ⟨pre, suf, hsplit, hok, hmeta, hobj, herr, hbad⟩ :=
    parseLoop_characterization p.metaScheme p.objScheme (Stream.anno s)
      (Stream.events s) (NewPackage α)
  refine ⟨pre, suf, hsplit, ?_, hmeta, hobj, hok⟩
  intro hnil
  rw [PackageParser.Parse] at he
  rw [herr.mpr hnil] at he
  exact Option.noConfusion he

/-- Instantiation of C6 at a concrete stream that fails on its second
document after decoding the first: the returned package keeps the first
document's metadata entry. -/
theorem C6_not_transactional_witness :
    ∃ pre suf,
      Stream.events ⟨[ReadEvent.doc "kind: Foo", ReadEvent.doc "kind: Mal"], none⟩
        = pre ++ suf ∧ suf ≠ [] ∧
      (PackageParser.Parse pA (some ⟨[ReadEvent.doc "kind: Foo",
          ReadEvent.doc "kind: Mal"], none⟩)).1.meta
        = (NewPackage String).meta ++ pre.filterMap (evMeta pA.metaScheme) ∧
      (PackageParser.Parse pA (some ⟨[ReadEvent.doc "kind: Foo",
          ReadEvent.doc "kind: Mal"], none⟩)).1.objects
        = (NewPackage String).objects ++ pre.filterMap (evObj pA.metaScheme pA.objScheme) ∧
      (∀ ev ∈ pre, evOk pA.metaScheme pA.objScheme ev = true) :=
  (C6_not_transactional pA).2 ⟨[ReadEvent.doc "kind: Foo", ReadEvent.doc "kind: Mal"], none⟩
    (ParseError.decode (DecodeError.other "malformed")) rfl

/-- C7: a nil reader yields a fresh empty package and no error, and
`NopBackend.Init` yields a nil reader and a nil error, which `Parse`
therefore treats as zero documents, not as an error. -/
theorem C7_nil_reader_and_nop_backend (p : PackageParser α) :
    NopBackendInit = (none, none) ∧
    PackageParser.Parse p NopBackendInit.1 = (NewPackage α, none) ∧
    PackageParser.Parse p none = (NewPackage α, none) :=
  ⟨rfl, rfl, rfl⟩

/-- The package part of the parse loop's result does not depend on the
reader's provenance value. -/
theorem parseLoop_fst_anno_independent (dm dObj : Registry α) (a1 a2 : Option String) :
    ∀ (evs : List ReadEvent) (pkg : Package α),
      (parseLoop dm dObj a1 evs pkg).1 = (parseLoop dm dObj a2 evs pkg).1 := by
  intro evs
  induction evs with
  | nil => intro pkg; rfl
  | cons ev rest ih =>
    intro pkg
    cases ev with
    | readErr m => rfl
    | doc d =>
      by_cases hblank : isEmptyYAML d
      · simpa [parseLoop, hblank] using ih pkg
      · cases hm : dm d with
        | ok m => simpa [parseLoop, hblank, hm] using ih { pkg with meta := pkg.meta ++ [m] }
        | error e =>
          cases hr : IsNotRegisteredError e with
          | true =>
            cases ho : dObj d with
            | ok o =>
              simpa [parseLoop, hblank, hm, hr, ho] using
                ih { pkg with objects := pkg.objects ++ [o] }
            | error e2 => simp [parseLoop, hblank, hm, hr, ho]
          | false => simp [parseLoop, hblank, hm, hr]

/-- C8: two parses of streams carrying the same read events — the same
stream bytes split the same way — through the same parser yield packages
with identical metadata lists and identical object lists, whatever their
provenance values. -/
theorem C8_parse_deterministic (p : PackageParser α) (s1 s2 : Stream)
    (h : Stream.events s1 = Stream.events s2) :
    Package.GetMeta (PackageParser.Parse p (some s1)).1
        = Package.GetMeta (PackageParser.Parse p (some s2)).1 ∧
    Package.GetObjects (PackageParser.Parse p (some s1)).1
        = Package.GetObjects (PackageParser.Parse p (some s2)).1 := by
  have hfst : (PackageParser.Parse p (some s1)).1 = (PackageParser.Parse p (some s2)).1 := by
    rw [PackageParser.Parse, PackageParser.Parse, h]
    exact parseLoop_fst_anno_independent p.metaScheme p.objScheme
      (Stream.anno s1) (Stream.anno s2) (Stream.events s2) (NewPackage α)
  exact ⟨congrArg Package.GetMeta hfst, congrArg Package.GetObjects hfst⟩

/-- Instantiation of C8 at two fresh streams over the same bytes (and even
different provenance values): both parses produce the same lists. -/
theorem C8_parse_deterministic_witness :
    Package.GetMeta (PackageParser.Parse pA
        (some ⟨[ReadEvent.doc "kind: Foo", ReadEvent.doc "kind: Bar"], some "a"⟩)).1
      = Package.GetMeta (PackageParser.Parse pA
        (some ⟨[ReadEvent.doc "kind: Foo", ReadEvent.doc "kind: Bar"], some "b"⟩)).1 ∧
    Package.GetObjects (PackageParser.Parse pA
        (some ⟨[ReadEvent.doc "kind: Foo", ReadEvent.doc "kind: Bar"], some "a"⟩)).1
      = Package.GetObjects (PackageParser.Parse pA
        (some ⟨[ReadEvent.doc "kind: Foo", ReadEvent.doc "kind: Bar"], some "b"⟩)).1 :=
  C8_parse_deterministic pA
    ⟨[ReadEvent.doc "kind: Foo", ReadEvent.doc "kind: Bar"], some "a"⟩
    ⟨[ReadEvent.doc "kind: Foo", ReadEvent.doc "kind: Bar"], some "b"⟩ rfl

/-- The closed set of backend variants, with each variant's fields as in
the source: `PodLogBackend` (client, name, namespace), `NopBackend`,
`FsBackend` (filesystem, dir, skips) and `EchoBackend` (echo string). The
client, filesystem and filter-function types are opaque parameters. -/
inductive Backend (κ φ σ : Type) where
  | podLog (client : Option κ) (name : String) (ns : String)
  | nop
  | fs (fsys : φ) (dir : String) (skips : List σ)
  | echo (echo : String)
deriving DecidableEq

/-- Whether a backend value is the `PodLogBackend` variant (the Go type
assertion `p.(*PodLogBackend)` succeeding). -/
def Backend.isPodLog : Backend κ φ σ → Bool
  | Backend.podLog .. => true
  | _ => false

/-- Whether a backend value is the `FsBackend` variant (the Go type
assertion `p.(*FsBackend)` succeeding). -/
def Backend.isFs : Backend κ φ σ → Bool
  | Backend.fs .. => true
  | _ => false

/-- Translation of `PodName`: set the name on a `PodLogBackend`, leave any
other backend untouched. -/
def PodName (name : String) : Backend κ φ σ → Backend κ φ σ
  | Backend.podLog c _ ns => Backend.podLog c name ns
  | b => b

/-- Translation of `PodNamespace`: set the namespace on a `PodLogBackend`,
leave any other backend untouched. -/
def PodNamespace (ns : String) : Backend κ φ σ → Backend κ φ σ
  | Backend.podLog c n _ => Backend.podLog c n ns
  | b => b

/-- Translation of `PodClient`: set the client on a `PodLogBackend`, leave
any other backend untouched. -/
def PodClient (client : κ) : Backend κ φ σ → Backend κ φ σ
  | Backend.podLog _ n ns => Backend.podLog (some client) n ns
  | b => b

/-- Translation of `FsDir`: set the directory on an `FsBackend`, leave any
other backend untouched. -/
def FsDir (dir : String) : Backend κ φ σ → Backend κ φ σ
  | Backend.fs fsys _ skips => Backend.fs fsys dir skips
  | b => b

/-- Translation of `FsFilters`: set the skip predicates on an `FsBackend`
(`f.skips = skips`, replacing any previous value), leave any other backend
untouched. -/
def FsFilters (skips : List σ) : Backend κ φ σ → Backend κ φ σ
  | Backend.fs fsys dir _ => Backend.fs fsys dir skips
  | b => b

/-- C9: each backend option applied to a backend of a different concrete
variant returns the backend entirely unchanged (and the option mechanism
has no error channel at all), and `FsFilters` on an `FsBackend` replaces —
rather than merges with — previously set skip predicates. -/
theorem C9_backend_option_no_op (κ φ σ : Type) :
    (∀ (b : Backend κ φ σ) (n : String), Backend.isPodLog b = false → PodName n b = b) ∧
    (∀ (b : Backend κ φ σ) (ns : String),
      Backend.isPodLog b = false → PodNamespace ns b = b) ∧
    (∀ (b : Backend κ φ σ) (c : κ), Backend.isPodLog b = false → PodClient c b = b) ∧
    (∀ (b : Backend κ φ σ) (dir : String), Backend.isFs b = false → FsDir dir b = b) ∧
    (∀ (b : Backend κ φ σ) (sk : List σ), Backend.isFs b = false → FsFilters sk b = b) ∧
    (∀ (fsys : φ) (dir : String) (sk sk2 : List σ),
      FsFilters sk2 (Backend.fs fsys dir sk) = (Backend.fs fsys dir sk2 : Backend κ φ σ)) := by
  refine ⟨?_, ?_, ?_, ?_, ?_, fun fsys dir sk sk2 => rfl⟩ <;>
    intro b x h <;> cases b <;> simp_all [Backend.isPodLog, Backend.isFs,
      PodName, PodNamespace, PodClient, FsDir, FsFilters]

/-- Instantiation of C9: pod options leave an `FsBackend` unchanged, fs
options leave a `PodLogBackend` unchanged, and reapplying `FsFilters`
replaces the previous skip list. -/
theorem C9_backend_option_no_op_witness :
    PodName "n" (Backend.fs (κ := Nat) (σ := Nat) 7 "d" [1]) = Backend.fs 7 "d" [1] ∧
    PodNamespace "ns" (Backend.nop (κ := Nat) (φ := Nat) (σ := Nat)) = Backend.nop ∧
    PodClient 5 (Backend.echo (κ := Nat) (φ := Nat) (σ := Nat) "e") = Backend.echo "e" ∧
    FsDir "d" (Backend.podLog (κ := Nat) (φ := Nat) (σ := Nat) none "n" "ns")
      = Backend.podLog none "n" "ns" ∧
    FsFilters [9] (Backend.nop (κ := Nat) (φ := Nat) (σ := Nat)) = Backend.nop ∧
    FsFilters [2, 3] (Backend.fs (κ := Nat) 7 "d" [1]) = Backend.fs 7 "d" [2, 3] :=
  ⟨(C9_backend_option_no_op Nat Nat Nat).1 _ "n" rfl,
    (C9_backend_option_no_op Nat Nat Nat).2.1 _ "ns" rfl,
    (C9_backend_option_no_op Nat Nat Nat).2.2.1 _ 5 rfl,
    (C9_backend_option_no_op Nat Nat Nat).2.2.2.1 _ "d" rfl,
    (C9_backend_option_no_op Nat Nat Nat).2.2.2.2.1 _ [9] rfl,
    (C9_backend_option_no_op Nat Nat Nat).2.2.2.2.2 7 "d" [1] [2, 3]⟩

/-- C10: `isEmptyYAML` trims only leading whitespace, so a document with a
line that trims to a separator or terminator followed by a trailing blank
is not blank — and such a document reaches the schemes: when the meta
scheme accepts it, it is decoded into the metadata list like any other
document. Concretely the single line `--- ` (trailing blank) is not blank
while ` ---` (leading blank) is, so blankness is not symmetric in leading
versus trailing whitespace. -/
theorem C10_trailing_whitespace_not_blank (α : Type) :
    (∀ (y : String) (l : List Char), l ∈ splitOnChar '\n' y.data →
      (trimLeftSpace l = ['-', '-', '-', ' '] ∨ trimLeftSpace l = ['.', '.', '.', ' ']) →
      isEmptyYAML y = false) ∧
    (∀ (dm dObj : Registry α) (anno : Option String) (rest : List ReadEvent)
        (pkg : Package α) (m : α), dm "--- " = Except.ok m →
      parseLoop dm dObj anno (ReadEvent.doc "--- " :: rest) pkg
        = parseLoop dm dObj anno rest { pkg with meta := pkg.meta ++ [m] }) ∧
    isEmptyYAML "--- " = false ∧ isEmptyYAML " ---" = true := by
  refine ⟨?_, ?_, by decide, by decide⟩
  · intro y l hmem hl
    cases hall : isEmptyYAML y with
    | false => rfl
    | true =>
      rw [isEmptyYAML] at hall
      have hline := List.all_eq_true.mp hall l hmem
      rcases hl with h | h <;>
        simp [emptyLine, h, startsWithHash] at hline
  · intro dm dObj anno rest pkg m hm
    simp [parseLoop, hm, show isEmptyYAML "--- " = false by decide]

/-- Instantiation of C10 at the single-line document `--- ` and a meta
scheme accepting it. -/
theorem C10_trailing_whitespace_not_blank_witness :
    isEmptyYAML "--- " = false ∧
    parseLoop (fun _ => Except.ok 0) (fun _ => Except.ok 0) none
        [ReadEvent.doc "--- "] (NewPackage Nat)
      = parseLoop (fun _ => Except.ok 0) (fun _ => Except.ok 0) none []
          { NewPackage Nat with meta := (NewPackage Nat).meta ++ [0] } :=
  ⟨(C10_trailing_whitespace_not_blank Nat).1 "--- " (" --- ".data.drop 1)
      (by decide) (Or.inl (by decide)),
    (C10_trailing_whitespace_not_blank Nat).2.1 (fun _ => Except.ok 0) (fun _ => Except.ok 0)
      none [] (NewPackage Nat) 0 rfl⟩

end ParserProof
